import Mathlib

/-!
Shallow embedding of the claude-session-tracker core: the SQLite-backed
session store (`internal/store/store.go`) and the lifecycle hook handler
(`internal/hook/handler.go`).

Modelling conventions:
* The two SQLite tables become Lean lists inside a `Store` value; the
  `AUTOINCREMENT` prompt id is an explicit `nextPromptId` counter.
* Timestamps are Unix milliseconds, modelled as `Int` (Go `int64`).
* Go strings are modelled as Lean `String`; a character stands for one byte
  (exact for ASCII data, which is all the handler's length/slicing logic is
  exercised with).
* `filepath.EvalSymlinks`-based path canonicalization (`ResolvePath`) is a
  filesystem effect; every operation that calls it takes an abstract
  `resolve : String → String` parameter instead.
* `time.Now()` is an explicit `now : Int` parameter, and `os.Getppid()` an
  explicit `ppid : Int` parameter.
* SQL `ORDER BY timestamp DESC` leaves the relative order of equal keys
  unspecified; the model fixes the tie-break "equal timestamps ordered by
  ascending row id", matching the `(session_id, timestamp DESC)` index order.
* The `foreign_keys(ON)` pragma plus the `REFERENCES sessions(id) ON DELETE
  CASCADE` clause of `createTables` are modelled by an existence check inside
  `AddPrompt` (insert into a missing session fails and the transaction rolls
  back) and by cascading prompt deletion inside every session-deleting
  operation.
-/

namespace SessionTracker

/-- `DefaultMaxCap = 500` from `store.go`. -/
def DefaultMaxCap : Int := 500

/-- `DefaultMaxPrompt = 10` from `store.go`. -/
def DefaultMaxPrompt : Nat := 10

/-- `maxPromptLen = 200` from `handler.go`. -/
def maxPromptLen : Nat := 200

/-- One row of the `sessions` table (`Session` struct in `store.go`).
`pid` is `*int` in Go, hence an `Option`. -/
structure Session where
  id : String
  project : String
  cwd : String
  startedAt : Int
  lastActivity : Int
  pid : Option Int
  active : Bool
  model : String
deriving DecidableEq

/-- One row of the `prompts` table (`Prompt` struct in `store.go`). -/
structure Prompt where
  id : Nat
  sessionId : String
  text : String
  timestamp : Int
deriving DecidableEq

/-- The durable state behind a `Store` handle: both tables plus the
autoincrement counter for `prompts.id`. -/
structure Store where
  sessions : List Session
  prompts : List Prompt
  nextPromptId : Nat
deriving DecidableEq

/-- Database errors surfaced by the modelled operations: `sql.ErrNoRows`
(returned by `Activate`) and a foreign-key constraint violation (the
`prompts.session_id REFERENCES sessions(id)` constraint). -/
inductive DBError where
  | noRows
  | fkViolation
deriving DecidableEq

/-- The order `ORDER BY timestamp DESC` used by prompt eviction and
`GetPrompts`, with ties broken by ascending row id (the order of the
`(session_id, timestamp DESC)` index). `promptLE a b` means `a` sorts
before `b`. -/
def promptLE (a b : Prompt) : Prop :=
  b.timestamp < a.timestamp ∨ (a.timestamp = b.timestamp ∧ a.id ≤ b.id)

instance : DecidableRel promptLE := fun a b =>
  decidable_of_iff (b.timestamp < a.timestamp ∨ (a.timestamp = b.timestamp ∧ a.id ≤ b.id))
    Iff.rfl

instance : IsTotal Prompt promptLE :=
  ⟨fun a b => by simp only [promptLE]; omega⟩

instance : IsTrans Prompt promptLE :=
  ⟨fun a b c hab hbc => by simp only [promptLE] at *; omega⟩

/-- The order `ORDER BY last_activity ASC` used by `EnforceCap` to pick
eviction victims. Ties keep table order (stable sort). -/
def sessLE (a b : Session) : Prop :=
  a.lastActivity ≤ b.lastActivity

instance : DecidableRel sessLE := fun a b =>
  decidable_of_iff (a.lastActivity ≤ b.lastActivity) Iff.rfl

instance : IsTotal Session sessLE :=
  ⟨fun a b => by simp only [sessLE]; omega⟩

instance : IsTrans Session sessLE :=
  ⟨fun a b c hab hbc => by simp only [sessLE] at *; omega⟩

/-- `UpsertSession`: `INSERT ... ON CONFLICT(id) DO UPDATE SET cwd, last_activity,
pid, active, model` — an existing row keeps its `id`, `project` and `started_at`;
a new row is inserted whole. `project` and `cwd` are canonicalized first. -/
def UpsertSession (resolve : String → String) (st : Store) (sess : Session) : Store :=
  let project := resolve sess.project
  let cwd := resolve sess.cwd
  if st.sessions.any (fun s => s.id == sess.id) then
    { st with sessions := st.sessions.map (fun s =>
        if s.id == sess.id then
          { s with cwd := cwd, lastActivity := sess.lastActivity,
                   pid := sess.pid, active := sess.active, model := sess.model }
        else s) }
  else
    { st with sessions := st.sessions ++ [{ sess with project := project, cwd := cwd }] }

/-- `Activate`: `UPDATE sessions SET active = 1, pid = ?, model = ?, cwd = ?,
last_activity = ? WHERE id = ?`; returns `sql.ErrNoRows` when no row was
affected. -/
def Activate (resolve : String → String) (st : Store) (id : String) (pid : Int)
    (mdl cwd : String) (now : Int) : Except DBError Store :=
  let updated := st.sessions.map (fun s =>
    if s.id == id then
      { s with active := true, pid := some pid, model := mdl,
               cwd := resolve cwd, lastActivity := now }
    else s)
  if st.sessions.any (fun s => s.id == id) then
    Except.ok { st with sessions := updated }
  else
    Except.error DBError.noRows

/-- `Deactivate`: `UPDATE sessions SET active = 0, pid = NULL WHERE id = ?`
(no error when nothing matches). -/
def Deactivate (st : Store) (id : String) : Store :=
  { st with sessions := st.sessions.map (fun s =>
      if s.id == id then { s with active := false, pid := none } else s) }

/-- `UpdateActivity`: `UPDATE sessions SET last_activity = ?, cwd = ? WHERE id = ?`. -/
def UpdateActivity (resolve : String → String) (st : Store) (id cwd : String)
    (ts : Int) : Store :=
  { st with sessions := st.sessions.map (fun s =>
      if s.id == id then { s with lastActivity := ts, cwd := resolve cwd } else s) }

/-- The row the `INSERT INTO prompts` of `AddPrompt` creates (id from the
autoincrement counter). -/
def newPromptRow (st : Store) (sid text : String) (ts : Int) : Prompt :=
  ⟨st.nextPromptId, sid, text, ts⟩

/-- The prompts table right after `AddPrompt`'s insert, before its eviction. -/
def promptsAfterInsert (st : Store) (sid text : String) (ts : Int) : List Prompt :=
  st.prompts ++ [newPromptRow st sid text ts]

/-- The session's prompts `ORDER BY timestamp DESC` as seen by `AddPrompt`'s
eviction subquery, after the insert. -/
def promptRanked (st : Store) (sid text : String) (ts : Int) : List Prompt :=
  List.insertionSort promptLE
    ((promptsAfterInsert st sid text ts).filter (fun p => p.sessionId == sid))

/-- The rows `AddPrompt`'s eviction deletes: `LIMIT -1 OFFSET DefaultMaxPrompt`
of the ranked session prompts. -/
def promptEvicted (st : Store) (sid text : String) (ts : Int) : List Prompt :=
  (promptRanked st sid text ts).drop DefaultMaxPrompt

/-- `AddPrompt`: one transaction that inserts the prompt row and then deletes
the rows of that session ranked beyond the first `DefaultMaxPrompt` by
`ORDER BY timestamp DESC` (`LIMIT -1 OFFSET 10`). The insert itself fails with
a foreign-key violation (and the transaction rolls back) when no session with
`sid` exists. -/
def AddPrompt (st : Store) (sid text : String) (ts : Int) : Except DBError Store :=
  if st.sessions.any (fun s => s.id == sid) then
    Except.ok { st with
      prompts := (promptsAfterInsert st sid text ts).filter
        (fun p => !((promptEvicted st sid text ts).any (fun q => q.id == p.id))),
      nextPromptId := st.nextPromptId + 1 }
  else
    Except.error DBError.fkViolation

/-- `GetPrompts`: `SELECT ... WHERE session_id = ? ORDER BY timestamp DESC
LIMIT ?`. A negative SQLite `LIMIT` means "no limit". -/
def GetPrompts (st : Store) (sid : String) (limit : Int) : List Prompt :=
  let ranked := List.insertionSort promptLE (st.prompts.filter (fun p => p.sessionId == sid))
  if limit < 0 then ranked else ranked.take limit.toNat

/-- `DeleteSession`: `DELETE FROM sessions WHERE id = ?`; prompts cascade. -/
def DeleteSession (st : Store) (id : String) : Store :=
  { st with sessions := st.sessions.filter (fun s => !(s.id == id)),
            prompts := st.prompts.filter (fun p => !(p.sessionId == id)) }

/-- `Cleanup`: `DELETE FROM sessions WHERE active = 0 AND last_activity < ?`
with cutoff `now - olderThanDays * 24h` (milliseconds); returns the number of
rows deleted. Prompts of deleted sessions cascade. -/
def Cleanup (st : Store) (olderThanDays : Int) (now : Int) : Store × Nat :=
  let cutoff := now - olderThanDays * 86400000
  let dead := st.sessions.filter (fun s => !s.active && decide (s.lastActivity < cutoff))
  ({ st with
      sessions := st.sessions.filter (fun s => !(!s.active && decide (s.lastActivity < cutoff))),
      prompts := st.prompts.filter (fun p => !(dead.any (fun v => v.id == p.sessionId))) },
   dead.length)

/-- The subquery of `EnforceCap`: `SELECT id FROM sessions WHERE active = 0
ORDER BY last_activity ASC LIMIT MAX(0, (SELECT COUNT(*) FROM sessions) - ?)`
(as full rows; `EnforceCap` deletes by their ids). -/
def capVictims (st : Store) (maxSessions : Int) : List Session :=
  (List.insertionSort sessLE (st.sessions.filter (fun s => !s.active))).take
    ((max 0 ((st.sessions.length : Int) - maxSessions)).toNat)

/-- `EnforceCap`: `DELETE FROM sessions WHERE id IN (SELECT id FROM sessions
WHERE active = 0 ORDER BY last_activity ASC LIMIT MAX(0, COUNT(*) - ?))`.
Prompts of deleted sessions cascade. -/
def EnforceCap (st : Store) (maxSessions : Int) : Store :=
  { st with
      sessions := st.sessions.filter
        (fun s => !((capVictims st maxSessions).any (fun v => v.id == s.id))),
      prompts := st.prompts.filter
        (fun p => !((capVictims st maxSessions).any (fun v => v.id == p.sessionId))) }

/-- `pid.Valid && isAlive(pid)` for the nullable pid column. -/
def pidAlive (isAlive : Int → Bool) : Option Int → Bool
  | none => false
  | some p => isAlive p

/-- `RefreshActive`: `SELECT id, pid FROM sessions WHERE active = 1`, collect
the ids whose pid is NULL or not alive, then `Deactivate` each collected id. -/
def RefreshActive (st : Store) (isAlive : Int → Bool) : Store :=
  let toDeactivate :=
    (st.sessions.filter (fun s => s.active && !(pidAlive isAlive s.pid))).map Session.id
  toDeactivate.foldl Deactivate st

/-- The hook input payload (`HookInput` in `handler.go`). -/
structure HookInput where
  sessionId : String
  transcriptPath : String
  cwd : String
  permissionMode : String
  hookEventName : String
  source : String
  model : String
  prompt : String
  reason : String
deriving DecidableEq

/-- The byte-level whitespace set of Go's `strings.TrimSpace` (ASCII fast
path of `unicode.IsSpace`). -/
def goIsSpace (c : Char) : Bool :=
  c == ' ' || c == '\t' || c == '\n' || c == '\x0B' || c == '\x0C' || c == '\r'

/-- Go's `strings.TrimSpace`: drop whitespace from both ends. -/
def goTrimSpace (s : String) : String :=
  String.mk (((s.data.dropWhile goIsSpace).reverse.dropWhile goIsSpace).reverse)

/-- Go's `strings.HasPrefix`. -/
def goStartsWith (s pre : String) : Bool :=
  pre.data.isPrefixOf s.data

/-- The truncation step of `HandlePrompt`:
`if len(prompt) > maxPromptLen { prompt = prompt[:maxPromptLen-3] + "..." }`. -/
def truncatePrompt (p : String) : String :=
  if maxPromptLen < p.length then String.mk (p.data.take (maxPromptLen - 3)) ++ "..."
  else p

/-- `HandleSessionStart`: try `Activate`; if that fails (session unseen) build
a fresh active record with `project = cwd`, `startedAt = lastActivity = now`,
`pid = ppid` and `UpsertSession` it; in both cases finish with
`EnforceCap DefaultMaxCap`. -/
def HandleSessionStart (resolve : String → String) (st : Store) (inp : HookInput)
    (now ppid : Int) : Store :=
  match Activate resolve st inp.sessionId ppid inp.model inp.cwd now with
  | Except.ok st1 => EnforceCap st1 DefaultMaxCap
  | Except.error _ =>
      let sess : Session :=
        { id := inp.sessionId, project := inp.cwd, cwd := inp.cwd, startedAt := now,
          lastActivity := now, pid := some ppid, active := true, model := inp.model }
      EnforceCap (UpsertSession resolve st sess) DefaultMaxCap

/-- `HandlePrompt`: trim; skip empty prompts and slash commands; truncate;
`AddPrompt` then `UpdateActivity`. -/
def HandlePrompt (resolve : String → String) (st : Store) (inp : HookInput)
    (now : Int) : Except DBError Store :=
  let prompt := goTrimSpace inp.prompt
  if prompt == "" || goStartsWith prompt "/" then Except.ok st
  else
    match AddPrompt st inp.sessionId (truncatePrompt prompt) now with
    | Except.error e => Except.error e
    | Except.ok st1 => Except.ok (UpdateActivity resolve st1 inp.sessionId inp.cwd now)

/-- `HandleSessionEnd`: deactivate the session. -/
def HandleSessionEnd (st : Store) (inp : HookInput) : Store :=
  Deactivate st inp.sessionId

/-- The prompt rows of one session, in table order. -/
def promptsOf (st : Store) (sid : String) : List Prompt :=
  st.prompts.filter (fun p => p.sessionId == sid)

/-- Number of inactive session rows. -/
def inactiveCount (st : Store) : Nat :=
  (st.sessions.filter (fun s => !s.active)).length

/-- Structural well-formedness guaranteed by the schema: primary-key
uniqueness for both tables and freshness of the autoincrement counter. -/
def Wf (st : Store) : Prop :=
  (st.sessions.map Session.id).Nodup ∧
  (st.prompts.map Prompt.id).Nodup ∧
  ∀ p ∈ st.prompts, p.id < st.nextPromptId

instance : DecidablePred Wf := fun st => by
  unfold Wf; infer_instance

/-- The active/pid invariant for one session row: `active=true` implies `pid`
is set, `active=false` implies `pid` is unset. -/
def SessInv (s : Session) : Prop :=
  (s.active = true → s.pid ≠ none) ∧ (s.active = false → s.pid = none)

instance : DecidablePred SessInv := fun s => by
  unfold SessInv; infer_instance

/-- The active/pid invariant over the whole store. -/
def StoreInv (st : Store) : Prop :=
  ∀ s ∈ st.sessions, SessInv s

instance : DecidablePred StoreInv := fun st => by
  unfold StoreInv; infer_instance

/-- No orphan prompts: every prompt row references an existing session row. -/
def NoOrphans (st : Store) : Prop :=
  ∀ p ∈ st.prompts, ∃ s ∈ st.sessions, s.id = p.sessionId

instance : DecidablePred NoOrphans := fun st => by
  unfold NoOrphans; infer_instance

/-! ### Helper lemmas -/

theorem filter_length_split (l : List Session) (p : Session → Bool) :
    (l.filter p).length + (l.filter (fun a => !(p a))).length = l.length := by
  have := List.length_eq_length_filter_add (l := l) p
  omega

/-- C9: a `UserPromptSubmit` whose text is empty after trimming, or starts with
`'/'` after trimming, is a no-op: the store is returned unchanged and the
handler succeeds. -/
theorem handlePrompt_skip (resolve : String → String) (st : Store) (inp : HookInput)
    (now : Int)
    (h : goTrimSpace inp.prompt = "" ∨ goStartsWith (goTrimSpace inp.prompt) "/" = true) :
    HandlePrompt resolve st inp now = Except.ok st := by
  unfold HandlePrompt
  rcases h with h | h
  · simp [h]
  · simp [h]

/-- Witness for `handlePrompt_skip` at a concrete slash-command input. -/
theorem handlePrompt_skip_witness :
    HandlePrompt id ⟨[], [], 0⟩
        ⟨"s", "", "/c", "", "UserPromptSubmit", "", "m", "  /help now  ", ""⟩ 5
      = Except.ok ⟨[], [], 0⟩ :=
  handlePrompt_skip id ⟨[], [], 0⟩
    ⟨"s", "", "/c", "", "UserPromptSubmit", "", "m", "  /help now  ", ""⟩ 5
    (Or.inr (by decide))

/-- C10: inserting a prompt for a session id with no session row fails with the
foreign-key violation (the enclosing transaction rolls back, so no state is
returned), and a successful `AddPrompt` never creates an orphan prompt row. -/
theorem addPrompt_missing_session (st : Store) (sid text : String) (ts : Int)
    (h : ∀ s ∈ st.sessions, s.id ≠ sid) :
    AddPrompt st sid text ts = Except.error DBError.fkViolation ∧
    (∀ (sid2 text2 : String) (ts2 : Int) (st' : Store), NoOrphans st →
      AddPrompt st sid2 text2 ts2 = Except.ok st' → NoOrphans st') := by
  constructor
  · have hany : st.sessions.any (fun s => s.id == sid) = false := by
      simp only [List.any_eq_false]
      intro s hs
      simpa using h s hs
    simp [AddPrompt, hany]
  · intro sid2 text2 ts2 st' hno hok
    unfold AddPrompt at hok
    by_cases hany : st.sessions.any (fun s => s.id == sid2) = true
    · simp only [hany, if_true, Except.ok.injEq] at hok
      subst hok
      intro p hp
      simp only [promptsAfterInsert, newPromptRow, List.mem_filter, List.mem_append,
        List.mem_singleton] at hp
      rcases hp.1 with hp1 | hp1
      · exact hno p hp1
      · subst hp1
        simp only [List.any_eq_true] at hany
        obtain ⟨s, hs, hbeq⟩ := hany
        exact ⟨s, hs, by simpa using hbeq⟩
    · simp [hany] at hok

/-- Witness for `addPrompt_missing_session`. -/
theorem addPrompt_missing_session_witness :
    AddPrompt ⟨[⟨"a", "/p", "/c", 0, 0, none, false, "m"⟩], [], 0⟩ "zz" "hi" 7
      = Except.error DBError.fkViolation :=
  (addPrompt_missing_session ⟨[⟨"a", "/p", "/c", 0, 0, none, false, "m"⟩], [], 0⟩
    "zz" "hi" 7 (by decide)).1

/-- C5: `Cleanup` deletes exactly the inactive sessions whose `lastActivity`
is strictly older than `now - olderThanDays` days, returns the number of rows
removed, and never deletes or modifies an active session. -/
theorem cleanup_spec (st : Store) (olderThanDays now : Int) :
    (∀ s ∈ st.sessions, s.active = true → s ∈ (Cleanup st olderThanDays now).1.sessions) ∧
    (∀ s ∈ st.sessions, s.active = false →
      s.lastActivity < now - olderThanDays * 86400000 →
      s ∉ (Cleanup st olderThanDays now).1.sessions) ∧
    (∀ s ∈ st.sessions, s.active = false →
      now - olderThanDays * 86400000 ≤ s.lastActivity →
      s ∈ (Cleanup st olderThanDays now).1.sessions) ∧
    (∀ s ∈ (Cleanup st olderThanDays now).1.sessions, s ∈ st.sessions) ∧
    (Cleanup st olderThanDays now).2 + (Cleanup st olderThanDays now).1.sessions.length
      = st.sessions.length := by
  refine ⟨?_, ?_, ?_, ?_, ?_⟩
  · intro s hs ha
    simp [Cleanup, List.mem_filter, hs, ha]
  · intro s hs ha hold
    simp [Cleanup, List.mem_filter, ha, hold]
  · intro s hs ha hnew
    simp only [Cleanup, List.mem_filter]
    refine ⟨hs, ?_⟩
    simp [ha]
    omega
  · intro s hs
    exact List.mem_of_mem_filter hs
  · have := filter_length_split st.sessions
      (fun s => !s.active && decide (s.lastActivity < now - olderThanDays * 86400000))
    simpa [Cleanup] using this

/-- Witness for `cleanup_spec`: the four-session seed from the spec's test
(old+inactive is removed, the other three survive; count comes out right). -/
theorem cleanup_spec_witness :
    (⟨"oldInact", "/p", "/c", 0, 0, none, false, "m"⟩ : Session)
      ∉ (Cleanup ⟨[⟨"oldInact", "/p", "/c", 0, 0, none, false, "m"⟩,
                   ⟨"oldAct", "/p", "/c", 0, 0, some 1, true, "m"⟩,
                   ⟨"newInact", "/p", "/c", 0, 2592000000000, none, false, "m"⟩,
                   ⟨"newAct", "/p", "/c", 0, 2592000000000, some 2, true, "m"⟩], [], 0⟩
          30 2592000000000).1.sessions :=
  (cleanup_spec ⟨[⟨"oldInact", "/p", "/c", 0, 0, none, false, "m"⟩,
                  ⟨"oldAct", "/p", "/c", 0, 0, some 1, true, "m"⟩,
                  ⟨"newInact", "/p", "/c", 0, 2592000000000, none, false, "m"⟩,
                  ⟨"newAct", "/p", "/c", 0, 2592000000000, some 2, true, "m"⟩], [], 0⟩
      30 2592000000000).2.1
    ⟨"oldInact", "/p", "/c", 0, 0, none, false, "m"⟩ (by decide) (by decide) (by decide)

/-- C6: `Activate` on an id with no session row fails with the not-found
signal and mutates nothing (the underlying `UPDATE` matches no row); on an id
with a row it succeeds, setting `active`, `pid`, `model`, canonicalized `cwd`
and `lastActivity` on exactly that row. -/
theorem activate_spec (resolve : String → String) (st : Store) (id0 : String)
    (pid0 now : Int) (mdl cwd : String) :
    ((∀ s ∈ st.sessions, s.id ≠ id0) →
      Activate resolve st id0 pid0 mdl cwd now = Except.error DBError.noRows ∧
      st.sessions.map (fun s =>
        if s.id == id0 then
          { s with active := true, pid := some pid0, model := mdl,
                   cwd := resolve cwd, lastActivity := now }
        else s) = st.sessions) ∧
    ((∃ s ∈ st.sessions, s.id = id0) →
      ∃ st', Activate resolve st id0 pid0 mdl cwd now = Except.ok st' ∧
        st'.prompts = st.prompts ∧
        st'.nextPromptId = st.nextPromptId ∧
        st'.sessions.length = st.sessions.length ∧
        (∀ s ∈ st.sessions, s.id ≠ id0 → s ∈ st'.sessions) ∧
        (∀ s ∈ st.sessions, s.id = id0 →
          ({ s with active := true, pid := some pid0, model := mdl,
                    cwd := resolve cwd, lastActivity := now } : Session)
            ∈ st'.sessions)) := by
  constructor
  · intro h
    have hany : st.sessions.any (fun s => s.id == id0) = false := by
      simp only [List.any_eq_false]
      intro s hs
      simpa using h s hs
    constructor
    · simp [Activate, hany]
    · apply List.map_congr_left ?_ |>.trans (List.map_id st.sessions)
      intro s hs
      simp [h s hs]
  · intro h
    obtain ⟨s0, hs0, hid0⟩ := h
    have hany : st.sessions.any (fun s => s.id == id0) = true := by
      simp only [List.any_eq_true]
      exact ⟨s0, hs0, by simpa using hid0⟩
    refine ⟨{ st with sessions := st.sessions.map (fun s =>
        if s.id == id0 then
          { s with active := true, pid := some pid0, model := mdl,
                   cwd := resolve cwd, lastActivity := now }
        else s) }, ?_, rfl, rfl, by simp, ?_, ?_⟩
    · simp [Activate, hany]
    · intro s hs hne
      refine List.mem_map.mpr ⟨s, hs, ?_⟩
      simp [hne]
    · intro s hs hid
      refine List.mem_map.mpr ⟨s, hs, ?_⟩
      simp [hid]

/-- Witness for `activate_spec` on both branches (missing id errors; present
id gets reactivated). -/
theorem activate_spec_witness :
    Activate id ⟨[⟨"a", "/p", "/c", 0, 0, none, false, "m"⟩], [], 0⟩ "zz" 9 "m2" "/c2" 5
      = Except.error DBError.noRows :=
  ((activate_spec id ⟨[⟨"a", "/p", "/c", 0, 0, none, false, "m"⟩], [], 0⟩
    "zz" 9 5 "m2" "/c2").1 (by decide)).1

/-- The net effect of `Deactivate`-ing every id in a list: each session whose
id occurs in the list ends inactive with its pid cleared; the rest are
untouched. -/
theorem foldl_deactivate (ids : List String) (st : Store) :
    (ids.foldl Deactivate st).sessions
      = st.sessions.map (fun s =>
          if ids.contains s.id then { s with active := false, pid := none } else s) ∧
    (ids.foldl Deactivate st).prompts = st.prompts ∧
    (ids.foldl Deactivate st).nextPromptId = st.nextPromptId := by
  induction ids generalizing st with
  | nil => simp
  | cons i rest ih =>
    obtain ⟨h1, h2, h3⟩ := ih (Deactivate st i)
    rw [List.foldl_cons]
    refine ⟨?_, by simpa [Deactivate] using h2, by simpa [Deactivate] using h3⟩
    rw [h1]
    simp only [Deactivate, List.map_map]
    apply List.map_congr_left
    intro s _
    simp only [Function.comp]
    by_cases hsi : s.id = i
    · by_cases hsr : rest.contains s.id = true <;> simp [hsi, hsr]
    · have : (s.id == i) = false := by simpa using hsi
      by_cases hsr : rest.contains s.id = true <;> simp [this, hsi, hsr]

/-- C4: `RefreshActive` deactivates exactly the active sessions whose pid is
absent or not alive (`pidAlive` is false); active sessions with a live pid and
all inactive sessions are untouched; afterwards every still-active session has
a live pid; with an always-false liveness function nothing stays active. -/
theorem refreshActive_spec (st : Store) (isAlive : Int → Bool)
    (hids : (st.sessions.map Session.id).Nodup) :
    (∀ s ∈ st.sessions, s.active = true → pidAlive isAlive s.pid = false →
      ({ s with active := false, pid := none } : Session)
        ∈ (RefreshActive st isAlive).sessions) ∧
    (∀ s ∈ st.sessions, s.active = true → pidAlive isAlive s.pid = true →
      s ∈ (RefreshActive st isAlive).sessions) ∧
    (∀ s ∈ st.sessions, s.active = false → s ∈ (RefreshActive st isAlive).sessions) ∧
    (∀ t ∈ (RefreshActive st isAlive).sessions, t.active = true →
      t ∈ st.sessions ∧ pidAlive isAlive t.pid = true) ∧
    (∀ t ∈ (RefreshActive st (fun _ => false)).sessions, t.active = false) ∧
    (RefreshActive st isAlive).prompts = st.prompts ∧
    (RefreshActive st isAlive).sessions.length = st.sessions.length := by
  have key : ∀ f : Int → Bool, (RefreshActive st f).sessions
      = st.sessions.map (fun s =>
          if ((st.sessions.filter (fun s' => s'.active && !(pidAlive f s'.pid))).map
                Session.id).contains s.id then
            { s with active := false, pid := none }
          else s) := by
    intro f
    exact (foldl_deactivate _ st).1
  have memD : ∀ (f : Int → Bool) (s : Session),
      ((st.sessions.filter (fun s' => s'.active && !(pidAlive f s'.pid))).map
          Session.id).contains s.id = true
        ↔ ∃ s' ∈ st.sessions, s'.active = true ∧ pidAlive f s'.pid = false ∧ s'.id = s.id := by
    intro f s
    rw [List.elem_iff]
    simp only [List.mem_map, List.mem_filter, Bool.and_eq_true, Bool.not_eq_true']
    constructor
    · rintro ⟨s', ⟨hs', ha', hd'⟩, hid⟩
      exact ⟨s', hs', ha', hd', hid⟩
    · rintro ⟨s', hs', ha', hd', hid⟩
      exact ⟨s', ⟨hs', ha', hd'⟩, hid⟩
  refine ⟨?_, ?_, ?_, ?_, ?_, ?_, ?_⟩
  · intro s hs ha hdead
    rw [key]
    refine List.mem_map.mpr ⟨s, hs, ?_⟩
    exact if_pos ((memD isAlive s).mpr ⟨s, hs, ha, hdead, rfl⟩)
  · intro s hs ha halive
    rw [key]
    refine List.mem_map.mpr ⟨s, hs, ?_⟩
    apply if_neg
    intro hcont
    obtain ⟨s', hs', _, hdead', hid'⟩ := (memD isAlive s).mp hcont
    have heq : s' = s := List.inj_on_of_nodup_map hids hs' hs hid'
    subst heq
    rw [halive] at hdead'
    exact Bool.true_eq_false.mp hdead'
  · intro s hs ha
    rw [key]
    refine List.mem_map.mpr ⟨s, hs, ?_⟩
    apply if_neg
    intro hcont
    obtain ⟨s', hs', ha', _, hid'⟩ := (memD isAlive s).mp hcont
    have heq : s' = s := List.inj_on_of_nodup_map hids hs' hs hid'
    subst heq
    rw [ha] at ha'
    exact Bool.false_eq_true.mp ha'
  · intro t ht hact
    rw [key] at ht
    obtain ⟨s, hs, hgs⟩ := List.mem_map.mp ht
    by_cases hc : ((st.sessions.filter (fun s' => s'.active && !(pidAlive isAlive s'.pid))).map
        Session.id).contains s.id = true
    · rw [if_pos hc] at hgs
      rw [← hgs] at hact
      simp at hact
    · rw [if_neg hc] at hgs
      subst hgs
      refine ⟨hs, ?_⟩
      by_cases halive : pidAlive isAlive s.pid = true
      · exact halive
      · exact absurd ((memD isAlive s).mpr
          ⟨s, hs, hact, Bool.eq_false_iff.mpr halive, rfl⟩) hc
  · intro t ht
    rw [key] at ht
    obtain ⟨s, hs, hgs⟩ := List.mem_map.mp ht
    by_cases hc : ((st.sessions.filter
        (fun s' => s'.active && !(pidAlive (fun _ => false) s'.pid))).map
        Session.id).contains s.id = true
    · rw [if_pos hc] at hgs
      rw [← hgs]
    · rw [if_neg hc] at hgs
      subst hgs
      by_cases hact : s.active = true
      · refine absurd ((memD (fun _ => false) s).mpr ⟨s, hs, hact, ?_, rfl⟩) hc
        cases s.pid <;> simp [pidAlive]
      · exact Bool.eq_false_iff.mpr hact
  · exact (foldl_deactivate _ st).2.1
  · rw [key]
    simp

/-- Witness for `refreshActive_spec`: an always-false liveness function
deactivates a concrete active session and clears its pid. -/
theorem refreshActive_spec_witness :
    ({ id := "a", project := "/p", cwd := "/c", startedAt := 0, lastActivity := 1,
       pid := none, active := false, model := "m" } : Session)
      ∈ (RefreshActive
          ⟨[⟨"a", "/p", "/c", 0, 1, some 42, true, "m"⟩], [], 0⟩
          (fun _ => false)).sessions :=
  (refreshActive_spec ⟨[⟨"a", "/p", "/c", 0, 1, some 42, true, "m"⟩], [], 0⟩
      (fun _ => false) (by decide)).1
    ⟨"a", "/p", "/c", 0, 1, some 42, true, "m"⟩ (by decide) (by decide) (by decide)

/-! ### Preservation of the active/pid invariant -/

theorem storeInv_enforceCap (st : Store) (m : Int) (h : StoreInv st) :
    StoreInv (EnforceCap st m) := by
  intro s hs
  simp only [EnforceCap] at hs
  exact h s (List.mem_of_mem_filter hs)

theorem storeInv_deactivate (st : Store) (id0 : String) (h : StoreInv st) :
    StoreInv (Deactivate st id0) := by
  intro t ht
  simp only [Deactivate] at ht
  obtain ⟨s, hs, hts⟩ := List.mem_map.mp ht
  by_cases hid : s.id == id0
  · rw [if_pos hid] at hts
    subst hts
    constructor <;> simp
  · rw [if_neg hid] at hts
    subst hts
    exact h s hs

theorem storeInv_updateActivity (resolve : String → String) (st : Store)
    (id0 cwd : String) (ts : Int) (h : StoreInv st) :
    StoreInv (UpdateActivity resolve st id0 cwd ts) := by
  intro t ht
  simp only [UpdateActivity] at ht
  obtain ⟨s, hs, hts⟩ := List.mem_map.mp ht
  by_cases hid : s.id == id0
  · rw [if_pos hid] at hts
    subst hts
    exact ⟨fun ha => (h s hs).1 ha, fun ha => (h s hs).2 ha⟩
  · rw [if_neg hid] at hts
    subst hts
    exact h s hs

theorem storeInv_upsert (resolve : String → String) (st : Store) (sess : Session)
    (h : StoreInv st) (hsess : SessInv sess) :
    StoreInv (UpsertSession resolve st sess) := by
  intro t ht
  unfold UpsertSession at ht
  by_cases hany : st.sessions.any (fun s => s.id == sess.id) = true
  · rw [if_pos hany] at ht
    obtain ⟨s, hs, hts⟩ := List.mem_map.mp ht
    by_cases hid : s.id == sess.id
    · rw [if_pos hid] at hts
      subst hts
      exact ⟨fun ha => hsess.1 ha, fun ha => hsess.2 ha⟩
    · rw [if_neg hid] at hts
      subst hts
      exact h s hs
  · rw [if_neg hany] at ht
    rcases List.mem_append.mp ht with ht' | ht'
    · exact h t ht'
    · rw [List.mem_singleton] at ht'
      subst ht'
      exact ⟨fun ha => hsess.1 ha, fun ha => hsess.2 ha⟩

theorem storeInv_activate_ok (resolve : String → String) (st : Store) (id0 : String)
    (pid0 now : Int) (mdl cwd : String) (st' : Store) (h : StoreInv st)
    (hok : Activate resolve st id0 pid0 mdl cwd now = Except.ok st') :
    StoreInv st' := by
  unfold Activate at hok
  by_cases hany : st.sessions.any (fun s => s.id == id0) = true
  · rw [if_pos hany] at hok
    injection hok with hok
    subst hok
    intro t ht
    obtain ⟨s, hs, hts⟩ := List.mem_map.mp ht
    by_cases hid : s.id == id0
    · rw [if_pos hid] at hts
      subst hts
      constructor <;> simp
    · rw [if_neg hid] at hts
      subst hts
      exact h s hs
  · rw [if_neg hany] at hok
    exact absurd hok (by simp)

theorem storeInv_refresh (st : Store) (isAlive : Int → Bool) (h : StoreInv st) :
    StoreInv (RefreshActive st isAlive) := by
  intro t ht
  have key : (RefreshActive st isAlive).sessions
      = st.sessions.map (fun s =>
          if ((st.sessions.filter (fun s' => s'.active && !(pidAlive isAlive s'.pid))).map
                Session.id).contains s.id then
            { s with active := false, pid := none }
          else s) :=
    (foldl_deactivate _ st).1
  rw [key] at ht
  obtain ⟨s, hs, hts⟩ := List.mem_map.mp ht
  by_cases hc : ((st.sessions.filter (fun s' => s'.active && !(pidAlive isAlive s'.pid))).map
      Session.id).contains s.id = true
  · rw [if_pos hc] at hts
    subst hts
    constructor <;> simp
  · rw [if_neg hc] at hts
    subst hts
    exact h s hs

/-- C2 counterexample: from the (reachable, invariant-satisfying) empty store,
`UpsertSession` with a record that is active but has no pid produces a store
violating the active/pid invariant — so `UpsertSession` does not preserve the
invariant unconditionally. -/
theorem storeInv_upsert_cx :
    StoreInv ⟨[], [], 0⟩ ∧
    ¬ StoreInv (UpsertSession id ⟨[], [], 0⟩ ⟨"s", "/p", "/c", 0, 0, none, true, "m"⟩) := by
  constructor
  · intro s hs
    simp at hs
  · intro h
    have hmem : (⟨"s", "/p", "/c", 0, 0, none, true, "m"⟩ : Session)
        ∈ (UpsertSession id ⟨[], [], 0⟩ ⟨"s", "/p", "/c", 0, 0, none, true, "m"⟩).sessions := by
      simp [UpsertSession]
    exact (h _ hmem).1 rfl rfl

/-- C2 (amended): `activate`, `deactivate`, `updateActivity` and
`refreshActive` preserve the active/pid invariant in every store state;
`upsertSession` preserves it whenever the record it is given itself satisfies
it; and every record stored through the lifecycle handler satisfies it, so all
handler-reachable states do. -/
theorem storeInv_preservation (resolve : String → String) (st : Store)
    (isAlive : Int → Bool) (sess : Session) (inp : HookInput)
    (id0 mdl cwd : String) (pid0 now ppid ts : Int)
    (hst : StoreInv st) :
    (SessInv sess → StoreInv (UpsertSession resolve st sess)) ∧
    (∀ st', Activate resolve st id0 pid0 mdl cwd now = Except.ok st' → StoreInv st') ∧
    StoreInv (Deactivate st id0) ∧
    StoreInv (UpdateActivity resolve st id0 cwd ts) ∧
    StoreInv (RefreshActive st isAlive) ∧
    StoreInv (HandleSessionStart resolve st inp now ppid) ∧
    (∀ st', HandlePrompt resolve st inp now = Except.ok st' → StoreInv st') ∧
    StoreInv (HandleSessionEnd st inp) := by
  refine ⟨fun hsess => storeInv_upsert resolve st sess hst hsess,
    fun st' hok => storeInv_activate_ok resolve st id0 pid0 now mdl cwd st' hst hok,
    storeInv_deactivate st id0 hst,
    storeInv_updateActivity resolve st id0 cwd ts hst,
    storeInv_refresh st isAlive hst, ?_, ?_, ?_⟩
  · unfold HandleSessionStart
    cases hA : Activate resolve st inp.sessionId ppid inp.model inp.cwd now with
    | ok st1 =>
        exact storeInv_enforceCap st1 DefaultMaxCap
          (storeInv_activate_ok resolve st inp.sessionId ppid now inp.model inp.cwd st1 hst hA)
    | error e =>
        refine storeInv_enforceCap _ DefaultMaxCap
          (storeInv_upsert resolve st _ hst ?_)
        constructor <;> simp
  · intro st' hok
    unfold HandlePrompt at hok
    by_cases hskip : (goTrimSpace inp.prompt == "" || goStartsWith (goTrimSpace inp.prompt) "/")
      = true
    · rw [if_pos hskip] at hok
      injection hok with hok
      subst hok
      exact hst
    · rw [if_neg hskip] at hok
      cases hAdd : AddPrompt st inp.sessionId (truncatePrompt (goTrimSpace inp.prompt)) now with
      | error e => rw [hAdd] at hok; exact absurd hok (by simp)
      | ok st1 =>
          rw [hAdd] at hok
          injection hok with hok
          subst hok
          have hsame : st1.sessions = st.sessions := by
            unfold AddPrompt at hAdd
            by_cases hany : st.sessions.any (fun s => s.id == inp.sessionId) = true
            · rw [if_pos hany] at hAdd
              injection hAdd with hAdd
              subst hAdd
              rfl
            · rw [if_neg hany] at hAdd
              exact absurd hAdd (by simp)
          refine storeInv_updateActivity resolve st1 inp.sessionId inp.cwd now ?_
          intro s hs
          rw [hsame] at hs
          exact hst s hs
  · exact storeInv_deactivate st inp.sessionId hst

/-- Witness for `storeInv_preservation`: upserting an invariant-respecting
record into a concrete invariant-respecting store keeps the invariant. -/
theorem storeInv_preservation_witness :
    StoreInv (UpsertSession id ⟨[⟨"a", "/p", "/c", 0, 0, some 3, true, "m"⟩], [], 0⟩
      ⟨"b", "/q", "/d", 1, 1, none, false, "m2"⟩) :=
  (storeInv_preservation id ⟨[⟨"a", "/p", "/c", 0, 0, some 3, true, "m"⟩], [], 0⟩
      (fun _ => true) ⟨"b", "/q", "/d", 1, 1, none, false, "m2"⟩
      ⟨"s", "", "/c", "", "SessionStart", "", "m", "", ""⟩
      "a" "m" "/c" 1 2 3 4 (by decide)).1 (by decide)

/-! ### EnforceCap facts -/

theorem capVictims_subset (st : Store) (m : Int) :
    ∀ v ∈ capVictims st m, v ∈ st.sessions ∧ v.active = false := by
  intro v hv
  have hv1 : v ∈ List.insertionSort sessLE (st.sessions.filter (fun s => !s.active)) :=
    List.mem_of_mem_take hv
  have hv2 : v ∈ st.sessions.filter (fun s => !s.active) :=
    (List.perm_insertionSort sessLE _).mem_iff.mp hv1
  have := List.mem_filter.mp hv2
  exact ⟨this.1, by simpa using this.2⟩

theorem capVictims_nodup (st : Store) (m : Int)
    (hids : (st.sessions.map Session.id).Nodup) : (capVictims st m).Nodup := by
  have hsess : st.sessions.Nodup := hids.of_map
  have hfil : (st.sessions.filter (fun s => !s.active)).Nodup :=
    hsess.sublist (List.filter_sublist st.sessions) |>.sublist (List.Sublist.refl _) |>.sublist
      (List.Sublist.refl _)
  have hsorted : (List.insertionSort sessLE (st.sessions.filter (fun s => !s.active))).Nodup :=
    ((List.perm_insertionSort sessLE _).nodup_iff).mpr hfil
  exact hsorted.sublist (List.take_sublist _ _)

theorem capHit_iff (st : Store) (m : Int) (hids : (st.sessions.map Session.id).Nodup) :
    ∀ s ∈ st.sessions,
      ((capVictims st m).any (fun v => v.id == s.id) = true ↔ s ∈ capVictims st m) := by
  intro s hs
  constructor
  · intro h
    obtain ⟨v, hv, hbeq⟩ := List.any_eq_true.mp h
    have hvid : v.id = s.id := by simpa using hbeq
    have hvmem : v ∈ st.sessions := (capVictims_subset st m v hv).1
    have : v = s := List.inj_on_of_nodup_map hids hvmem hs hvid
    subst this
    exact hv
  · intro h
    exact List.any_eq_true.mpr ⟨s, h, by simp⟩

/-- Active sessions always survive `EnforceCap`. -/
theorem active_survives_enforceCap (st : Store) (m : Int)
    (hids : (st.sessions.map Session.id).Nodup) (s : Session)
    (hs : s ∈ st.sessions) (ha : s.active = true) :
    s ∈ (EnforceCap st m).sessions := by
  simp only [EnforceCap]
  refine List.mem_filter.mpr ⟨hs, ?_⟩
  rw [Bool.not_eq_eq_eq_not, Bool.not_true, Bool.eq_false_iff]
  intro hhit
  have := (capVictims_subset st m s ((capHit_iff st m hids s hs).mp hhit)).2
  rw [ha] at this
  exact Bool.true_eq_false.mp this

/-- C3: `EnforceCap` never deletes an active session; everything it deletes is
inactive and no more recent (by `lastActivity`) than any surviving inactive
session; and when the inactive population suffices it trims the total count
to exactly `min count maxSessions`. -/
theorem enforceCap_spec (st : Store) (maxSessions : Int)
    (hids : (st.sessions.map Session.id).Nodup) :
    (∀ s ∈ st.sessions, s.active = true → s ∈ (EnforceCap st maxSessions).sessions) ∧
    (∀ s ∈ st.sessions, s ∉ (EnforceCap st maxSessions).sessions → s.active = false) ∧
    (∀ s ∈ st.sessions, s ∉ (EnforceCap st maxSessions).sessions →
      ∀ t ∈ (EnforceCap st maxSessions).sessions, t.active = false →
        s.lastActivity ≤ t.lastActivity) ∧
    (∀ t ∈ (EnforceCap st maxSessions).sessions, t ∈ st.sessions) ∧
    ((st.sessions.length : Int) - maxSessions ≤ (inactiveCount st : Int) →
      ((EnforceCap st maxSessions).sessions.length : Int)
        = min (st.sessions.length : Int) maxSessions) := by
  have hdel : ∀ s ∈ st.sessions, s ∉ (EnforceCap st maxSessions).sessions →
      s ∈ capVictims st maxSessions := by
    intro s hs hnot
    by_cases hhit : (capVictims st maxSessions).any (fun v => v.id == s.id) = true
    · exact (capHit_iff st maxSessions hids s hs).mp hhit
    · exact absurd (List.mem_filter.mpr ⟨hs, by simp [hhit]⟩) hnot
  refine ⟨fun s hs ha => active_survives_enforceCap st maxSessions hids s hs ha,
    ?_, ?_, ?_, ?_⟩
  · intro s hs hnot
    exact (capVictims_subset st maxSessions s (hdel s hs hnot)).2
  · intro s hs hnot t ht hta
    have hsv : s ∈ capVictims st maxSessions := hdel s hs hnot
    have htsess : t ∈ st.sessions := List.mem_of_mem_filter ht
    have htfil : t ∈ st.sessions.filter (fun s => !s.active) :=
      List.mem_filter.mpr ⟨htsess, by simp [hta]⟩
    have htsort : t ∈ List.insertionSort sessLE (st.sessions.filter (fun s => !s.active)) :=
      (List.perm_insertionSort sessLE _).mem_iff.mpr htfil
    have htnot : t ∉ capVictims st maxSessions := by
      intro hvt
      have hhit : (capVictims st maxSessions).any (fun v => v.id == t.id) = true :=
        (capHit_iff st maxSessions hids t htsess).mpr hvt
      have := (List.mem_filter.mp ht).2
      rw [hhit] at this
      simp at this
    have htdrop : t ∈ (List.insertionSort sessLE
        (st.sessions.filter (fun s => !s.active))).drop
          ((max 0 ((st.sessions.length : Int) - maxSessions)).toNat) := by
      rcases List.mem_append.mp (by
        rw [List.take_append_drop]
        exact htsort :
          t ∈ (List.insertionSort sessLE (st.sessions.filter (fun s => !s.active))).take
              ((max 0 ((st.sessions.length : Int) - maxSessions)).toNat)
            ++ (List.insertionSort sessLE (st.sessions.filter (fun s => !s.active))).drop
              ((max 0 ((st.sessions.length : Int) - maxSessions)).toNat)) with h | h
      · exact absurd h htnot
      · exact h
    exact (List.sorted_insertionSort sessLE
      (st.sessions.filter (fun s => !s.active))).rel_of_mem_take_of_mem_drop hsv htdrop
  · intro t ht
    exact List.mem_of_mem_filter ht
  · intro henough
    have hsplit := filter_length_split st.sessions
      (fun s => (capVictims st maxSessions).any (fun v => v.id == s.id))
    have hperm : List.Perm (st.sessions.filter
        (fun s => (capVictims st maxSessions).any (fun v => v.id == s.id)))
          (capVictims st maxSessions) := by
      have hnd1 : (st.sessions.filter
          (fun s => (capVictims st maxSessions).any (fun v => v.id == s.id))).Nodup :=
        (hids.of_map).sublist (List.filter_sublist st.sessions)
      have hnd2 : (capVictims st maxSessions).Nodup := capVictims_nodup st maxSessions hids
      refine (List.subperm_of_subset hnd1 ?_).antisymm (List.subperm_of_subset hnd2 ?_)
      · intro x hx
        obtain ⟨hxs, hxhit⟩ := List.mem_filter.mp hx
        exact (capHit_iff st maxSessions hids x hxs).mp hxhit
      · intro v hv
        refine List.mem_filter.mpr ⟨(capVictims_subset st maxSessions v hv).1, ?_⟩
        exact (capHit_iff st maxSessions hids v
          (capVictims_subset st maxSessions v hv).1).mpr hv
    have hvlen : (capVictims st maxSessions).length
        = min ((max 0 ((st.sessions.length : Int) - maxSessions)).toNat)
            (inactiveCount st) := by
      unfold capVictims
      rw [List.length_take, (List.perm_insertionSort sessLE _).length_eq]
      rfl
    have hk : (((max 0 ((st.sessions.length : Int) - maxSessions)).toNat : Int))
        = max 0 ((st.sessions.length : Int) - maxSessions) :=
      Int.toNat_of_nonneg (le_max_left 0 _)
    have hlen : ((EnforceCap st maxSessions).sessions.length)
        = (st.sessions.filter (fun s =>
            !((capVictims st maxSessions).any (fun v => v.id == s.id)))).length := rfl
    rw [hlen]
    have hplen := hperm.length_eq
    omega

/-- Witness for `enforceCap_spec`: five inactive sessions with distinct
`lastActivity`, cap 3 — the count comes down to exactly 3. -/
theorem enforceCap_spec_witness :
    (((EnforceCap ⟨[⟨"a", "/p", "/c", 0, 1, none, false, "m"⟩,
                    ⟨"b", "/p", "/c", 0, 2, none, false, "m"⟩,
                    ⟨"c", "/p", "/c", 0, 3, none, false, "m"⟩,
                    ⟨"d", "/p", "/c", 0, 4, none, false, "m"⟩,
                    ⟨"e", "/p", "/c", 0, 5, none, false, "m"⟩], [], 0⟩ 3).sessions.length : Int))
      = min (5 : Int) 3 :=
  (enforceCap_spec ⟨[⟨"a", "/p", "/c", 0, 1, none, false, "m"⟩,
                    ⟨"b", "/p", "/c", 0, 2, none, false, "m"⟩,
                    ⟨"c", "/p", "/c", 0, 3, none, false, "m"⟩,
                    ⟨"d", "/p", "/c", 0, 4, none, false, "m"⟩,
                    ⟨"e", "/p", "/c", 0, 5, none, false, "m"⟩], [], 0⟩ 3
    (by decide)).2.2.2.2 (by decide)

/-- C7: `HandleSessionStart` with an unseen id creates a full active record
(project and cwd both the canonicalized event cwd, `startedAt = lastActivity =
now`, `pid = ppid`) and then enforces the default cap; with an existing id it
reactivates that row (refreshing pid, model, cwd, lastActivity; id, project
and startedAt untouched) and then enforces the default cap. -/
theorem handleSessionStart_spec (resolve : String → String) (st : Store) (inp : HookInput)
    (now ppid : Int) (hids : (st.sessions.map Session.id).Nodup) :
    ((∀ s ∈ st.sessions, s.id ≠ inp.sessionId) →
      HandleSessionStart resolve st inp now ppid
        = EnforceCap (UpsertSession resolve st
            ⟨inp.sessionId, inp.cwd, inp.cwd, now, now, some ppid, true, inp.model⟩)
            DefaultMaxCap ∧
      (⟨inp.sessionId, resolve inp.cwd, resolve inp.cwd, now, now, some ppid, true,
          inp.model⟩ : Session)
        ∈ (HandleSessionStart resolve st inp now ppid).sessions) ∧
    (∀ s ∈ st.sessions, s.id = inp.sessionId →
      (∃ st1, Activate resolve st inp.sessionId ppid inp.model inp.cwd now = Except.ok st1 ∧
        HandleSessionStart resolve st inp now ppid = EnforceCap st1 DefaultMaxCap) ∧
      ({ s with active := true, pid := some ppid, model := inp.model,
                cwd := resolve inp.cwd, lastActivity := now } : Session)
        ∈ (HandleSessionStart resolve st inp now ppid).sessions) := by
  constructor
  · intro h
    have hany : st.sessions.any (fun s => s.id == inp.sessionId) = false := by
      simp only [List.any_eq_false]
      intro s hs
      simpa using h s hs
    have hErr : Activate resolve st inp.sessionId ppid inp.model inp.cwd now
        = Except.error DBError.noRows := by
      simp [Activate, hany]
    have hhss : HandleSessionStart resolve st inp now ppid
        = EnforceCap (UpsertSession resolve st
            ⟨inp.sessionId, inp.cwd, inp.cwd, now, now, some ppid, true, inp.model⟩)
            DefaultMaxCap := by
      unfold HandleSessionStart
      rw [hErr]
    refine ⟨hhss, ?_⟩
    rw [hhss]
    have hup : (UpsertSession resolve st
        ⟨inp.sessionId, inp.cwd, inp.cwd, now, now, some ppid, true, inp.model⟩).sessions
          = st.sessions
            ++ [⟨inp.sessionId, resolve inp.cwd, resolve inp.cwd, now, now, some ppid, true,
                 inp.model⟩] := by
      simp [UpsertSession, hany]
    have hids2 : (((UpsertSession resolve st
        ⟨inp.sessionId, inp.cwd, inp.cwd, now, now, some ppid, true, inp.model⟩).sessions.map
          Session.id)).Nodup := by
      rw [hup]
      rw [List.map_append, List.nodup_append]
      refine ⟨hids, by simp, ?_⟩
      intro a ha hb
      simp only [List.map_cons, List.map_nil, List.mem_singleton] at hb
      obtain ⟨s, hs, hsid⟩ := List.mem_map.mp ha
      subst hb
      exact h s hs (by rw [← hsid])
    refine active_survives_enforceCap _ DefaultMaxCap hids2 _ ?_ rfl
    rw [hup]
    exact List.mem_append.mpr (Or.inr (List.mem_singleton.mpr rfl))
  · intro s hs hid
    have hany : st.sessions.any (fun s' => s'.id == inp.sessionId) = true :=
      List.any_eq_true.mpr ⟨s, hs, by simpa using hid⟩
    have hOk : Activate resolve st inp.sessionId ppid inp.model inp.cwd now
        = Except.ok { st with sessions := st.sessions.map (fun s' =>
            if s'.id == inp.sessionId then
              { s' with active := true, pid := some ppid, model := inp.model,
                        cwd := resolve inp.cwd, lastActivity := now }
            else s') } := by
      simp [Activate, hany]
    have hhss : HandleSessionStart resolve st inp now ppid
        = EnforceCap { st with sessions := st.sessions.map (fun s' =>
            if s'.id == inp.sessionId then
              { s' with active := true, pid := some ppid, model := inp.model,
                        cwd := resolve inp.cwd, lastActivity := now }
            else s') } DefaultMaxCap := by
      unfold HandleSessionStart
      rw [hOk]
    refine ⟨⟨_, hOk, hhss⟩, ?_⟩
    rw [hhss]
    have hids1 : ((st.sessions.map (fun s' =>
        if s'.id == inp.sessionId then
          { s' with active := true, pid := some ppid, model := inp.model,
                    cwd := resolve inp.cwd, lastActivity := now }
        else s')).map Session.id).Nodup := by
      rw [List.map_map]
      have : (Session.id ∘ fun s' =>
          if s'.id == inp.sessionId then
            { s' with active := true, pid := some ppid, model := inp.model,
                      cwd := resolve inp.cwd, lastActivity := now }
          else s') = Session.id := by
        funext s'
        simp only [Function.comp]
        by_cases hc : s'.id == inp.sessionId
        · rw [if_pos hc]
        · rw [if_neg hc]
      rw [this]
      exact hids
    refine active_survives_enforceCap _ DefaultMaxCap hids1 _ ?_ rfl
    refine List.mem_map.mpr ⟨s, hs, ?_⟩
    rw [if_pos (by simpa using hid)]

/-- Witness for `handleSessionStart_spec`: an unseen id yields a fresh active
record with pid and timestamps filled in. -/
theorem handleSessionStart_spec_witness :
    (⟨"s", "/c", "/c", 7, 7, some 9, true, "m"⟩ : Session)
      ∈ (HandleSessionStart id ⟨[], [], 0⟩
          ⟨"s", "", "/c", "", "SessionStart", "", "m", "", ""⟩ 7 9).sessions :=
  ((handleSessionStart_spec id ⟨[], [], 0⟩
      ⟨"s", "", "/c", "", "SessionStart", "", "m", "", ""⟩ 7 9 (by decide)).1
    (by decide)).2

/-- When the session holds fewer than `DefaultMaxPrompt` prompts, `AddPrompt`
evicts nothing: it just appends the new row. -/
theorem addPrompt_no_evict (st : Store) (sid text : String) (ts : Int)
    (hany : st.sessions.any (fun s => s.id == sid) = true)
    (hroom : (promptsOf st sid).length < DefaultMaxPrompt) :
    AddPrompt st sid text ts
      = Except.ok { st with
          prompts := st.prompts ++ [⟨st.nextPromptId, sid, text, ts⟩],
          nextPromptId := st.nextPromptId + 1 } := by
  have hflen : ((st.prompts ++ [(⟨st.nextPromptId, sid, text, ts⟩ : Prompt)]).filter
      (fun p => p.sessionId == sid)).length ≤ DefaultMaxPrompt := by
    rw [List.filter_append, List.length_append]
    have h2 : (List.filter (fun p => p.sessionId == sid)
        [(⟨st.nextPromptId, sid, text, ts⟩ : Prompt)]).length ≤ 1 := by
      have := List.length_filter_le (fun p => p.sessionId == sid)
        [(⟨st.nextPromptId, sid, text, ts⟩ : Prompt)]
      simp only [List.length_cons, List.length_nil] at this
      exact this
    have h1 : (List.filter (fun p => p.sessionId == sid) st.prompts).length
        < DefaultMaxPrompt := hroom
    omega
  have hnil : (List.insertionSort promptLE (List.filter (fun p => p.sessionId == sid)
      st.prompts ++ [(⟨st.nextPromptId, sid, text, ts⟩ : Prompt)])).drop
        DefaultMaxPrompt = [] := by
    refine List.drop_eq_nil_iff.mpr ?_
    rw [(List.perm_insertionSort promptLE _).length_eq]
    rw [List.filter_append] at hflen
    simp only [List.filter_cons, List.filter_nil, beq_self_eq_true, if_true] at hflen
    exact hflen
  simp [AddPrompt, promptEvicted, promptRanked, promptsAfterInsert, newPromptRow, hany, hnil]

/-- C8: a trimmed prompt longer than `maxPromptLen` is recorded truncated to
exactly `maxPromptLen` characters ending in `"..."`; a trimmed prompt of at
most `maxPromptLen` is recorded verbatim. -/
theorem handlePrompt_truncation (resolve : String → String) (st : Store) (inp : HookInput)
    (now : Int)
    (hany : st.sessions.any (fun s => s.id == inp.sessionId) = true)
    (hroom : (promptsOf st inp.sessionId).length < DefaultMaxPrompt)
    (hne : goTrimSpace inp.prompt ≠ "")
    (hsl : goStartsWith (goTrimSpace inp.prompt) "/" = false) :
    (maxPromptLen < (goTrimSpace inp.prompt).length →
      HandlePrompt resolve st inp now
        = Except.ok (UpdateActivity resolve
            { st with
              prompts := (st.prompts
                ++ [⟨st.nextPromptId, inp.sessionId,
                     String.mk ((goTrimSpace inp.prompt).data.take (maxPromptLen - 3)) ++ "...",
                     now⟩]),
              nextPromptId := st.nextPromptId + 1 } inp.sessionId inp.cwd now) ∧
      (String.mk ((goTrimSpace inp.prompt).data.take (maxPromptLen - 3)) ++ "...").length
        = maxPromptLen ∧
      ∃ u : String, String.mk ((goTrimSpace inp.prompt).data.take (maxPromptLen - 3)) ++ "..."
        = u ++ "...") ∧
    ((goTrimSpace inp.prompt).length ≤ maxPromptLen →
      HandlePrompt resolve st inp now
        = Except.ok (UpdateActivity resolve
            { st with
              prompts := (st.prompts
                ++ [⟨st.nextPromptId, inp.sessionId, goTrimSpace inp.prompt, now⟩]),
              nextPromptId := st.nextPromptId + 1 } inp.sessionId inp.cwd now)) := by
  have hskip : ¬((goTrimSpace inp.prompt == "" || goStartsWith (goTrimSpace inp.prompt) "/")
      = true) := by
    simp [hsl]
    simpa using hne
  constructor
  · intro hlong
    have htr : truncatePrompt (goTrimSpace inp.prompt)
        = String.mk ((goTrimSpace inp.prompt).data.take (maxPromptLen - 3)) ++ "..." := by
      unfold truncatePrompt
      rw [if_pos hlong]
    refine ⟨?_, ?_, ⟨String.mk ((goTrimSpace inp.prompt).data.take (maxPromptLen - 3)), rfl⟩⟩
    · have hAdd := addPrompt_no_evict st inp.sessionId
        (String.mk ((goTrimSpace inp.prompt).data.take (maxPromptLen - 3)) ++ "...") now
        hany hroom
      unfold HandlePrompt
      rw [if_neg hskip, htr, hAdd]
    · rw [String.length_append]
      have hdata : (goTrimSpace inp.prompt).data.length = (goTrimSpace inp.prompt).length := rfl
      have htake : ((goTrimSpace inp.prompt).data.take (maxPromptLen - 3)).length
          = maxPromptLen - 3 := by
        rw [List.length_take]
        have : maxPromptLen < (goTrimSpace inp.prompt).data.length := by rw [hdata]; exact hlong
        simp only [maxPromptLen] at this ⊢
        omega
      have : (String.mk ((goTrimSpace inp.prompt).data.take (maxPromptLen - 3))).length
          = maxPromptLen - 3 := htake
      rw [this]
      rfl
  · intro hshort
    have htr : truncatePrompt (goTrimSpace inp.prompt) = goTrimSpace inp.prompt := by
      unfold truncatePrompt
      rw [if_neg (by omega)]
    have hAdd := addPrompt_no_evict st inp.sessionId (goTrimSpace inp.prompt) now hany hroom
    unfold HandlePrompt
    rw [if_neg hskip, htr, hAdd]

set_option maxRecDepth 8000 in
/-- Witness for `handlePrompt_truncation`: a 201-character prompt is stored as
exactly 200 characters. -/
theorem handlePrompt_truncation_witness :
    (String.mk ((goTrimSpace (String.mk (List.replicate 201 'a'))).data.take
        (maxPromptLen - 3)) ++ "...").length = maxPromptLen :=
  ((handlePrompt_truncation id ⟨[⟨"s", "/p", "/c", 0, 0, none, false, "m"⟩], [], 0⟩
      ⟨"s", "", "/c", "", "UserPromptSubmit", "", "m", String.mk (List.replicate 201 'a'), ""⟩
      5 (by decide) (by decide) (by decide) (by decide)).1 (by decide)).2.1

/-! ### AddPrompt ring-buffer facts -/

theorem addPrompt_ok_elim (st : Store) (sid text : String) (ts : Int) (st' : Store)
    (hok : AddPrompt st sid text ts = Except.ok st') :
    st.sessions.any (fun s => s.id == sid) = true ∧
    st' = { st with
      prompts := (promptsAfterInsert st sid text ts).filter
        (fun p => !((promptEvicted st sid text ts).any (fun q => q.id == p.id))),
      nextPromptId := st.nextPromptId + 1 } := by
  unfold AddPrompt at hok
  by_cases hany : st.sessions.any (fun s => s.id == sid) = true
  · rw [if_pos hany] at hok
    injection hok with hok
    exact ⟨hany, hok.symm⟩
  · rw [if_neg hany] at hok
    exact absurd hok (by simp)

theorem promptsAfterInsert_ids_nodup (st : Store) (sid text : String) (ts : Int)
    (hwf : Wf st) :
    ((promptsAfterInsert st sid text ts).map Prompt.id).Nodup := by
  unfold promptsAfterInsert newPromptRow
  rw [List.map_append, List.nodup_append]
  refine ⟨hwf.2.1, by simp, ?_⟩
  intro a ha hb
  simp only [List.map_cons, List.map_nil, List.mem_singleton] at hb
  subst hb
  obtain ⟨p, hp, hpid⟩ := List.mem_map.mp ha
  have := hwf.2.2 p hp
  omega

theorem sessPrompts_eq (st : Store) (sid text : String) (ts : Int) :
    (promptsAfterInsert st sid text ts).filter (fun p => p.sessionId == sid)
      = promptsOf st sid ++ [newPromptRow st sid text ts] := by
  unfold promptsAfterInsert promptsOf
  rw [List.filter_append]
  simp [newPromptRow]

theorem sessPrompts_ids_nodup (st : Store) (sid text : String) (ts : Int) (hwf : Wf st) :
    (((promptsAfterInsert st sid text ts).filter (fun p => p.sessionId == sid)).map
      Prompt.id).Nodup :=
  (promptsAfterInsert_ids_nodup st sid text ts hwf).sublist
    ((List.filter_sublist _).map Prompt.id)

theorem promptRanked_perm (st : Store) (sid text : String) (ts : Int) :
    List.Perm (promptRanked st sid text ts)
      ((promptsAfterInsert st sid text ts).filter (fun p => p.sessionId == sid)) :=
  List.perm_insertionSort promptLE _

theorem promptRanked_sorted (st : Store) (sid text : String) (ts : Int) :
    List.Sorted promptLE (promptRanked st sid text ts) :=
  List.sorted_insertionSort promptLE _

theorem promptRanked_ids_nodup (st : Store) (sid text : String) (ts : Int) (hwf : Wf st) :
    ((promptRanked st sid text ts).map Prompt.id).Nodup :=
  (((promptRanked_perm st sid text ts).map Prompt.id).nodup_iff).mpr
    (sessPrompts_ids_nodup st sid text ts hwf)

theorem promptRanked_nodup (st : Store) (sid text : String) (ts : Int) (hwf : Wf st) :
    (promptRanked st sid text ts).Nodup :=
  (promptRanked_ids_nodup st sid text ts hwf).of_map

/-- Membership in the evicted set is determined by the row id, as the SQL
`DELETE ... WHERE id IN` does. -/
theorem evicted_hit_iff (st : Store) (sid text : String) (ts : Int) (hwf : Wf st)
    (p : Prompt)
    (hp : p ∈ (promptsAfterInsert st sid text ts).filter (fun q => q.sessionId == sid)) :
    ((promptEvicted st sid text ts).any (fun q => q.id == p.id)) = true
      ↔ p ∈ promptEvicted st sid text ts := by
  constructor
  · intro h
    obtain ⟨q, hq, hbeq⟩ := List.any_eq_true.mp h
    have hqid : q.id = p.id := by simpa using hbeq
    have hqr : q ∈ promptRanked st sid text ts :=
      List.mem_of_mem_drop hq
    have hpr : p ∈ promptRanked st sid text ts :=
      (promptRanked_perm st sid text ts).mem_iff.mpr hp
    have : q = p := List.inj_on_of_nodup_map
      (promptRanked_ids_nodup st sid text ts hwf) hqr hpr hqid
    subst this
    exact hq
  · intro h
    exact List.any_eq_true.mpr ⟨p, h, by simp⟩

/-- What survives `AddPrompt` for the session is exactly (up to order) the
first `DefaultMaxPrompt` rows of the ranked list. -/
theorem addPrompt_retained (st : Store) (sid text : String) (ts : Int) (st' : Store)
    (hwf : Wf st) (hok : AddPrompt st sid text ts = Except.ok st') :
    List.Perm (promptsOf st' sid) ((promptRanked st sid text ts).take DefaultMaxPrompt) := by
  obtain ⟨hany, hst'⟩ := addPrompt_ok_elim st sid text ts st' hok
  subst hst'
  have hswap : promptsOf { st with
      prompts := (promptsAfterInsert st sid text ts).filter
        (fun p => !((promptEvicted st sid text ts).any (fun q => q.id == p.id))),
      nextPromptId := st.nextPromptId + 1 } sid
      = ((promptsAfterInsert st sid text ts).filter (fun p => p.sessionId == sid)).filter
          (fun p => !((promptEvicted st sid text ts).any (fun q => q.id == p.id))) := by
    unfold promptsOf
    rw [List.filter_filter, List.filter_filter]
    exact List.filter_congr (fun a _ => Bool.and_comm _ _)
  rw [hswap]
  have hfc : ((promptsAfterInsert st sid text ts).filter
      (fun p => p.sessionId == sid)).filter
        (fun p => !((promptEvicted st sid text ts).any (fun q => q.id == p.id)))
      = ((promptsAfterInsert st sid text ts).filter
          (fun p => p.sessionId == sid)).filter
            (fun p => decide (p ∉ promptEvicted st sid text ts)) := by
    refine List.filter_congr ?_
    intro p hp
    by_cases hpe : p ∈ promptEvicted st sid text ts
    · have h1 : ((promptEvicted st sid text ts).any (fun q => q.id == p.id)) = true :=
        (evicted_hit_iff st sid text ts hwf p hp).mpr hpe
      simp [h1, hpe]
    · have h1 : ((promptEvicted st sid text ts).any (fun q => q.id == p.id)) = false := by
        rw [Bool.eq_false_iff]
        intro hc
        exact hpe ((evicted_hit_iff st sid text ts hwf p hp).mp hc)
      simp [h1, hpe]
  rw [hfc]
  have hpf : List.Perm
      (((promptsAfterInsert st sid text ts).filter (fun p => p.sessionId == sid)).filter
        (fun p => decide (p ∉ promptEvicted st sid text ts)))
      ((promptRanked st sid text ts).filter
        (fun p => decide (p ∉ promptEvicted st sid text ts))) :=
    ((promptRanked_perm st sid text ts).symm).filter _
  have hsplit : promptRanked st sid text ts
      = (promptRanked st sid text ts).take DefaultMaxPrompt
        ++ promptEvicted st sid text ts :=
    (List.take_append_drop DefaultMaxPrompt (promptRanked st sid text ts)).symm
  have hdisj : ∀ a ∈ (promptRanked st sid text ts).take DefaultMaxPrompt,
      a ∉ promptEvicted st sid text ts := by
    have hnd : ((promptRanked st sid text ts).take DefaultMaxPrompt
        ++ promptEvicted st sid text ts).Nodup := by
      rw [← hsplit]
      exact promptRanked_nodup st sid text ts hwf
    exact fun a ha hb => (List.nodup_append.mp hnd).2.2 ha hb
  have hkeep : ((promptRanked st sid text ts).take DefaultMaxPrompt).filter
      (fun p => decide (p ∉ promptEvicted st sid text ts))
      = (promptRanked st sid text ts).take DefaultMaxPrompt :=
    List.filter_eq_self.mpr (fun a ha => by simp [hdisj a ha])
  have hev : (promptEvicted st sid text ts).filter
      (fun p => decide (p ∉ promptEvicted st sid text ts)) = [] := by
    rw [List.filter_eq_nil_iff]
    intro a ha
    simp [ha]
  rw [hsplit, List.filter_append, hkeep, hev, List.append_nil] at hpf
  exact hpf

/-- `GetPrompts` returns the most recent `min limit count` prompts of the
session, newest first. -/
theorem getPrompts_spec (st : Store) (sid : String) (limit : Int) (hlim : 0 ≤ limit) :
    (GetPrompts st sid limit).length = min limit.toNat (promptsOf st sid).length ∧
    List.Pairwise (fun a b => b.timestamp ≤ a.timestamp) (GetPrompts st sid limit) ∧
    (∀ p ∈ GetPrompts st sid limit, p ∈ promptsOf st sid) ∧
    (∀ p ∈ GetPrompts st sid limit, ∀ q ∈ promptsOf st sid,
      q ∉ GetPrompts st sid limit → q.timestamp ≤ p.timestamp) := by
  have hneg : ¬(limit < 0) := not_lt.mpr hlim
  have hg : GetPrompts st sid limit
      = (List.insertionSort promptLE (st.prompts.filter (fun p => p.sessionId == sid))).take
          limit.toNat := by
    unfold GetPrompts
    rw [if_neg hneg]
  have hperm : List.Perm (List.insertionSort promptLE
      (st.prompts.filter (fun p => p.sessionId == sid))) (promptsOf st sid) :=
    List.perm_insertionSort promptLE _
  have hsorted := List.sorted_insertionSort promptLE
    (st.prompts.filter (fun p => p.sessionId == sid))
  refine ⟨?_, ?_, ?_, ?_⟩
  · rw [hg, List.length_take, hperm.length_eq]
  · rw [hg]
    refine List.Pairwise.imp ?_ (hsorted.sublist (List.take_sublist _ _))
    intro a b hab
    unfold promptLE at hab
    omega
  · intro p hp
    rw [hg] at hp
    exact hperm.mem_iff.mp (List.mem_of_mem_take hp)
  · intro p hp q hq hqnot
    rw [hg] at hp hqnot
    have hqr : q ∈ List.insertionSort promptLE
        (st.prompts.filter (fun p => p.sessionId == sid)) := hperm.mem_iff.mpr hq
    have hqdrop : q ∈ (List.insertionSort promptLE
        (st.prompts.filter (fun p => p.sessionId == sid))).drop limit.toNat := by
      rcases List.mem_append.mp (by
        rw [List.take_append_drop]
        exact hqr :
          q ∈ (List.insertionSort promptLE
              (st.prompts.filter (fun p => p.sessionId == sid))).take limit.toNat
            ++ (List.insertionSort promptLE
              (st.prompts.filter (fun p => p.sessionId == sid))).drop limit.toNat) with h | h
      · exact absurd h hqnot
      · exact h
    have := hsorted.rel_of_mem_take_of_mem_drop hp hqdrop
    unfold promptLE at this
    omega

/-- C1: after a successful `AddPrompt` the session retains, up to order,
exactly the first `DefaultMaxPrompt` rows of the recency-ranked session
prompts (so the deleted rows are exactly those beyond the 10 most recent, and
the retained count is exactly `min (previous + 1) 10`, hence at most 10);
every prompt this call evicted has a timestamp no newer than any retained
prompt's; schema well-formedness is preserved (so this holds after every call
of any sequence); and `GetPrompts` returns the most recent `min limit count`
prompts, newest first. -/
theorem addPrompt_ring (st st' : Store) (sid text : String) (ts limit : Int)
    (hwf : Wf st) (hok : AddPrompt st sid text ts = Except.ok st') (hlim : 0 ≤ limit) :
    Wf st' ∧
    List.Perm (promptsOf st' sid) ((promptRanked st sid text ts).take DefaultMaxPrompt) ∧
    (promptsOf st' sid).length = min ((promptsOf st sid).length + 1) DefaultMaxPrompt ∧
    (promptsOf st' sid).length ≤ DefaultMaxPrompt ∧
    (∀ p ∈ promptsOf st' sid, ∀ q ∈ promptsOf st sid ++ [newPromptRow st sid text ts],
      q ∉ promptsOf st' sid → q.timestamp ≤ p.timestamp) ∧
    (GetPrompts st' sid limit).length = min limit.toNat (promptsOf st' sid).length ∧
    List.Pairwise (fun a b => b.timestamp ≤ a.timestamp) (GetPrompts st' sid limit) ∧
    (∀ p ∈ GetPrompts st' sid limit, p ∈ promptsOf st' sid) ∧
    (∀ p ∈ GetPrompts st' sid limit, ∀ q ∈ promptsOf st' sid,
      q ∉ GetPrompts st' sid limit → q.timestamp ≤ p.timestamp) := by
  obtain ⟨hany, hst'⟩ := addPrompt_ok_elim st sid text ts st' hok
  have hret := addPrompt_retained st sid text ts st' hwf hok
  obtain ⟨hgp1, hgp2, hgp3, hgp4⟩ := getPrompts_spec st' sid limit hlim
  refine ⟨?_, hret, ?_, ?_, ?_, hgp1, hgp2, hgp3, hgp4⟩
  · subst hst'
    refine ⟨hwf.1, ?_, ?_⟩
    · exact (promptsAfterInsert_ids_nodup st sid text ts hwf).sublist
        ((List.filter_sublist _).map Prompt.id)
    · intro p hp
      show p.id < st.nextPromptId + 1
      have hp' : p ∈ promptsAfterInsert st sid text ts := List.mem_of_mem_filter hp
      unfold promptsAfterInsert newPromptRow at hp'
      rcases List.mem_append.mp hp' with h | h
      · have := hwf.2.2 p h
        omega
      · rw [List.mem_singleton] at h
        subst h
        exact Nat.lt_succ_self _
  · rw [hret.length_eq, List.length_take, (promptRanked_perm st sid text ts).length_eq,
      sessPrompts_eq, List.length_append]
    simp only [List.length_singleton]
    omega
  · rw [hret.length_eq, List.length_take]
    exact le_trans (Nat.min_le_left _ _) (le_refl _)
  · intro p hp q hq hqnot
    have hp' : p ∈ (promptRanked st sid text ts).take DefaultMaxPrompt :=
      hret.mem_iff.mp hp
    have hq' : q ∈ promptRanked st sid text ts := by
      refine (promptRanked_perm st sid text ts).mem_iff.mpr ?_
      rw [sessPrompts_eq]
      exact hq
    have hqdrop : q ∈ promptEvicted st sid text ts := by
      rcases List.mem_append.mp (by
        rw [List.take_append_drop]
        exact hq' :
          q ∈ (promptRanked st sid text ts).take DefaultMaxPrompt
            ++ (promptRanked st sid text ts).drop DefaultMaxPrompt) with h | h
      · exact absurd (hret.mem_iff.mpr h) hqnot
      · exact h
    have := (promptRanked_sorted st sid text ts).rel_of_mem_take_of_mem_drop hp' hqdrop
    unfold promptLE at this
    omega

/-- Witness for `addPrompt_ring`: adding one prompt to a one-session store
leaves exactly `min (0 + 1) 10` prompts for the session. -/
theorem addPrompt_ring_witness :
    (promptsOf ⟨[⟨"s", "/p", "/c", 0, 0, none, true, "m"⟩],
        [⟨0, "s", "hi", 3⟩], 1⟩ "s").length
      = min ((promptsOf ⟨[⟨"s", "/p", "/c", 0, 0, none, true, "m"⟩], [], 0⟩ "s").length + 1)
          DefaultMaxPrompt :=
  (addPrompt_ring ⟨[⟨"s", "/p", "/c", 0, 0, none, true, "m"⟩], [], 0⟩
      ⟨[⟨"s", "/p", "/c", 0, 0, none, true, "m"⟩], [⟨0, "s", "hi", 3⟩], 1⟩
      "s" "hi" 3 5 (by decide) (by rfl) (by decide)).2.2.1

end SessionTracker
